import Mathlib

/-!
Verification of the tmux-mcp server core (src/main.rs) against its
specification.  The program text is shallowly embedded: strings are
lists of characters, external tmux invocations become oracle function
parameters, and each tool implementation becomes a pure Lean function
mirroring the Rust control flow line by line.
-/

namespace TmuxMcp

/-! ## Basic string helpers (Rust `str` operations used by the program) -/

/-- Rust `char::is_whitespace`, restricted to the ASCII whitespace that
`str::trim` removes in practice for this program. -/
def isWS (c : Char) : Bool := c.isWhitespace

/-- Rust `str::trim`: drop whitespace from both ends. -/
def trim (s : List Char) : List Char :=
  ((s.dropWhile isWS).reverse.dropWhile isWS).reverse

/-- Rust `str::trim_end`: drop whitespace from the right end only. -/
def trimEnd (s : List Char) : List Char :=
  (s.reverse.dropWhile isWS).reverse

/-- Rust `str::split(sep)`: split a string on a separator character.
Splitting the empty string yields one empty field, as in Rust. -/
def splitOnChar (sep : Char) : List Char → List (List Char)
  | [] => [[]]
  | c :: rest =>
    match splitOnChar sep rest with
    | [] => [[]]
    | cur :: others =>
      if c = sep then [] :: cur :: others else (c :: cur) :: others

/-- Rust `Vec::join(sep)`: concatenate chunks with a separator between
consecutive chunks. -/
def joinSep (sep : List Char) : List (List Char) → List Char
  | [] => []
  | [x] => x
  | x :: xs => x ++ sep ++ joinSep sep xs

/-- Rust `str::parse::<u32>()`: `some` value on a well-formed unsigned
decimal numeral (optional leading plus sign) that fits in 32 bits,
`none` otherwise. -/
def parseU32opt (s : List Char) : Option Nat :=
  let digits := match s with
    | '+' :: rest => rest
    | _ => s
  if digits = [] ∨ ¬ digits.all Char.isDigit then none
  else
    let v := digits.foldl (fun acc c => acc * 10 + (c.toNat - 48)) 0
    if v < 4294967296 then some v else none

/-- Rust `s.parse::<u32>().unwrap_or(0)`: lenient numeric parsing with a
zero default on failure. -/
def parseU32 (s : List Char) : Nat := (parseU32opt s).getD 0

/-! ## Tabular formatter (`truncate`, `align_columns`) -/

/-- `const MAX_NAME_LEN: usize = 20` -/
def MAX_NAME_LEN : Nat := 20

/-- `const MAX_CMD_LEN: usize = 16` -/
def MAX_CMD_LEN : Nat := 16

/-- `fn truncate(s: &str, max: usize) -> String`: keep `s` whole when it
has at most `max` characters, otherwise keep the first
`max.saturating_sub(3)` characters and append an ellipsis. -/
def truncate (s : List Char) (max : Nat) : List Char :=
  if s.length ≤ max then s
  else s.take (max - 3) ++ ['.', '.', '.']

/-- Rust `format!("{:width$}", cell)`: left-align the cell, padding with
spaces on the right up to `w` characters. -/
def padCell (cell : List Char) (w : Nat) : List Char :=
  cell ++ List.replicate (w - cell.length) ' '

/-- `let col_count = rows.iter().map(|r| r.len()).max().unwrap_or(0)` -/
def colCount (rows : List (List (List Char))) : Nat :=
  (rows.map List.length).foldl max 0

/-- The final value of `widths[i]` after the accumulation loop in
`align_columns`: the maximum cell length observed at column `i` over
rows long enough to have a column `i`. -/
def colWidth (rows : List (List (List Char))) (i : Nat) : Nat :=
  rows.foldl (fun acc r => max acc ((r[i]?.map List.length).getD 0)) 0

/-- The `widths` vector of `align_columns`, of length `col_count`. -/
def widthsList (rows : List (List (List Char))) : List Nat :=
  (List.range (colCount rows)).map (colWidth rows)

/-- The per-row rendering loop body of `align_columns`: every cell except
the last of its row is padded to the column width, the last is kept
as is. -/
def rowCells (widths : List Nat) (row : List (List Char)) : List (List Char) :=
  row.enum.map fun ic =>
    if ic.1 + 1 < row.length then padCell ic.2 (widths.getD ic.1 0) else ic.2

/-- `fn align_columns(rows: &[Vec<String>]) -> Vec<String>` -/
def align_columns (rows : List (List (List Char))) : List (List Char) :=
  if rows.isEmpty then []
  else rows.map fun row => joinSep [' ', ' '] (rowCells (widthsList rows) row)

/-! ## Topology query layer: parsing tab-delimited tmux output rows -/

/-- `struct PaneInfo` from `fetch_panes`. -/
structure PaneInfo where
  pane_index : Nat
  width : Nat
  height : Nat
  current_command : List Char
  is_active : Bool
  pane_id : List Char
  deriving DecidableEq

/-- Build a `PaneInfo` from the tab fields of one `list-panes` line
(the loop body of `fetch_panes` once the length guard has passed). -/
def paneOfLine (line : List Char) : PaneInfo :=
  let f := splitOnChar '\t' line
  { pane_index := parseU32 (f.getD 0 [])
    width := parseU32 (f.getD 1 [])
    height := parseU32 (f.getD 2 [])
    current_command := f.getD 3 []
    is_active := f.getD 4 [] = ['1']
    pane_id := f.getD 5 [] }

/-- The parsing half of `async fn fetch_panes`: the tmux reply is given
as the list of its output lines; lines with fewer than six tab-separated
fields are skipped. -/
def fetch_panes (lines : List (List Char)) : List PaneInfo :=
  lines.filterMap fun line =>
    if 6 ≤ (splitOnChar '\t' line).length then some (paneOfLine line) else none

/-- `struct SessionRow` from `list_sessions`. -/
structure SessionRow where
  name : List Char
  window_count : List Char
  state : List Char
  deriving DecidableEq

/-- Build a `SessionRow` from the tab fields of one `list-sessions` line. -/
def sessionOfLine (line : List Char) : SessionRow :=
  let f := splitOnChar '\t' line
  { name := f.getD 0 [], window_count := f.getD 1 [], state := f.getD 2 [] }

/-- The session-row parsing loop of `list_sessions`: lines with fewer
than three tab-separated fields are skipped. -/
def list_sessions_rows (lines : List (List Char)) : List SessionRow :=
  lines.filterMap fun line =>
    if 3 ≤ (splitOnChar '\t' line).length then some (sessionOfLine line) else none

/-- `struct WinRow` from `list_windows`. -/
structure WinRow where
  session : List Char
  index : List Char
  name : List Char
  pane_count : List Char
  active : List Char
  deriving DecidableEq

/-- Build a `WinRow` from the tab fields of one `list-windows` line. -/
def winOfLine (line : List Char) : WinRow :=
  let f := splitOnChar '\t' line
  { session := f.getD 0 [], index := f.getD 1 [], name := f.getD 2 []
    pane_count := f.getD 3 [], active := f.getD 4 [] }

/-- The window-row parsing loop of `list_windows`: lines with fewer than
five tab-separated fields are skipped. -/
def parseWinRows (lines : List (List Char)) : List WinRow :=
  lines.filterMap fun line =>
    if 5 ≤ (splitOnChar '\t' line).length then some (winOfLine line) else none

/-- `format!("{}:{}", w.session, w.index)` -/
def winKey (w : WinRow) : List Char := w.session ++ ':' :: w.index

/-! ## Target resolver and pane capture -/

/-- The two `display-message` format strings used for ambient-context
lookups: `#{session_name}` and `#{session_name}:#{window_index}`. -/
inductive Fmt where
  | sessionName
  | sessionWindow
  deriving DecidableEq

/-- The external `tmux display-message -t <pane> -p <format>` capability:
given the ambient pane id and a format, tmux replies with the formatted
string (raw stdout) or an error text. -/
def Query : Type := List Char → Fmt → Except (List Char) (List Char)

/-- `async fn resolve_pane_id`: run the display-message query and trim
the reply. -/
def resolve_pane_id (q : Query) (pane_id : List Char) (fmt : Fmt) :
    Except (List Char) (List Char) :=
  (q pane_id fmt).map trim

/-- The external `tmux capture-pane` capability: captured text or an
error text for a given fully-resolved target. -/
def Capture : Type := List Char → Except (List Char) (List Char)

/-- `async fn capture_pane`: returns the captured contents, or an inline
error string when the capture fails. -/
def capture_pane (cap : Capture) (target : List Char) : List Char :=
  match cap target with
  | Except.ok contents => contents
  | Except.error e =>
      "Error capturing ".toList ++ target ++ ": ".toList ++ e ++ ['\n']

/-- The rejection message of `get_pane_contents` for a session-qualified
target without a pane specifier. -/
def invalidTargetMsg (t : List Char) : List Char :=
  "Invalid target \"".toList ++ t ++
    "\": expected \"sess:window.pane\" but no pane specifier found. Use get_window_contents to read an entire window.".toList

/-- The message returned when ambient context is needed but the server
is not running inside tmux. -/
def notRunningMsg : List Char := "Not running inside tmux".toList

/-- External calls get_pane_contents can make, recorded in order so that
theorems can speak about which calls were attempted. -/
inductive TmuxCall where
  | display (fmt : Fmt)
  | capture
  deriving DecidableEq

/-- The target-resolution block of `get_pane_contents` (main.rs lines
526 to 553): trims the raw target and normalizes it to
`session:window.pane`, together with the log of display-message queries
issued.  Branch order mirrors the source: session delimiter first, then
pane delimiter, then bare index. -/
def resolveTarget (cpid : Option (List Char)) (q : Query) (raw : List Char) :
    Except (List Char) (List Char) × List Fmt :=
  let t := trim raw
  if ':' ∈ t then
    if '.' ∈ t then (Except.ok t, [])
    else (Except.error (invalidTargetMsg t), [])
  else if '.' ∈ t then
    match cpid with
    | none => (Except.error notRunningMsg, [])
    | some pane_id =>
      match resolve_pane_id q pane_id Fmt.sessionName with
      | Except.ok session => (Except.ok (session ++ ':' :: t), [Fmt.sessionName])
      | Except.error e => (Except.error e, [Fmt.sessionName])
  else
    match cpid with
    | none => (Except.error notRunningMsg, [])
    | some pane_id =>
      match resolve_pane_id q pane_id Fmt.sessionWindow with
      | Except.ok current_window =>
          (Except.ok (current_window ++ '.' :: t), [Fmt.sessionWindow])
      | Except.error e => (Except.error e, [Fmt.sessionWindow])

/-- `async fn get_pane_contents`: resolve the target, then capture; on a
resolution failure the error text is returned and no capture happens.
The second component logs every external call attempted. -/
def get_pane_contents (cap : Capture) (cpid : Option (List Char)) (q : Query)
    (raw : List Char) : List Char × List TmuxCall :=
  match resolveTarget cpid q raw with
  | (Except.error e, calls) => (e, calls.map TmuxCall.display)
  | (Except.ok target, calls) =>
      (capture_pane cap target, calls.map TmuxCall.display ++ [TmuxCall.capture])

/-! ## list_windows -/

/-- The `current_window` lookup at the top of `list_windows`: resolve the
ambient pane to `session:window`, keeping only a successful reply. -/
def currentWindowOf (cpid : Option (List Char)) (q : Query) : Option (List Char) :=
  match cpid with
  | none => none
  | some pane_id =>
    match resolve_pane_id q pane_id Fmt.sessionWindow with
    | Except.ok s => some s
    | Except.error _ => none

/-- `format!("{} pane{}", pcount, ...)` with singular for one pane. -/
def paneCountText (pc : List Char) : List Char :=
  let n := parseU32 pc
  Nat.toDigits 10 n ++ " pane".toList ++ (if n = 1 then [] else ['s'])

/-- The non-verbose row builder of `list_windows`: key, truncated name,
pane count, then optional `active` and `<-- current` cells, in that
order. -/
def nonVerboseRow (cw : Option (List Char)) (w : WinRow) : List (List Char) :=
  let key := winKey w
  let base := [key, truncate w.name MAX_NAME_LEN, paneCountText w.pane_count]
  let base := if w.active = "active".toList then base ++ ["active".toList] else base
  if cw = some key then base ++ ["<-- current".toList] else base

/-- All non-verbose rows of `list_windows`. -/
def nonVerboseRows (cw : Option (List Char)) (windows : List WinRow) :
    List (List (List Char)) :=
  windows.map (nonVerboseRow cw)

/-- One pane row in verbose `list_windows`: indented pane index,
dimensions, truncated command, and an optional suffix cell holding
`(active)` and/or `<-- current` (the latter only when this window is the
ambient window and the pane id matches the ambient pane). -/
def vPaneRow (is_current_window : Bool) (cpid : Option (List Char))
    (p : PaneInfo) : List (List Char) :=
  let cols := ["  .".toList ++ Nat.toDigits 10 p.pane_index,
               Nat.toDigits 10 p.width ++ 'x' :: Nat.toDigits 10 p.height,
               truncate p.current_command MAX_CMD_LEN]
  let s1 := if p.is_active then "(active)".toList else []
  let s2 :=
    if is_current_window = true ∧ cpid = some p.pane_id then
      (if s1 = [] then [] else "  ".toList) ++ "<-- current".toList
    else []
  let suffix := s1 ++ s2
  if suffix = [] then cols else cols ++ [suffix]

/-- The verbose window header line of `list_windows`:
`{key}:  {name}  {N pane(s)}` plus `  active` when the window is active,
terminated by a newline. -/
def vWinHeader (w : WinRow) : List Char :=
  let pcount := parseU32 w.pane_count
  winKey w ++ ":  ".toList ++ truncate w.name MAX_NAME_LEN ++ "  ".toList ++
    Nat.toDigits 10 pcount ++ " pane".toList ++ (if pcount = 1 then [] else ['s']) ++
    (if w.active = "active".toList then "  active".toList else []) ++ ['\n']

/-- One verbose window block of `list_windows`: header line, then the
aligned pane rows; a pane-listing failure keeps the header and drops the
pane lines (the `continue` in the source). -/
def vWindowBlock (panesOf : List Char → List Char → Except (List Char) (List PaneInfo))
    (cw : Option (List Char)) (cpid : Option (List Char)) (w : WinRow) : List Char :=
  vWinHeader w ++
    match panesOf w.session w.index with
    | Except.error _ => []
    | Except.ok ps =>
        ((align_columns (ps.map
            (vPaneRow (decide (cw = some (winKey w))) cpid))).map
          (· ++ ['\n'])).flatten

/-- `async fn list_windows`, with the external world abstracted: `lines`
is the tab-delimited `list-windows` reply, `q` answers display-message
lookups, `panesOf` answers per-window `list-panes` queries. -/
def list_windows
    (panesOf : List Char → List Char → Except (List Char) (List PaneInfo))
    (q : Query) (cpid : Option (List Char)) (verbose : Bool)
    (lines : List (List Char)) : List Char :=
  let cw := currentWindowOf cpid q
  let windows := parseWinRows lines
  if verbose then
    trimEnd (windows.foldl (fun out w => out ++ vWindowBlock panesOf cw cpid w) [])
  else
    joinSep ['\n'] (align_columns (nonVerboseRows cw windows))

/-! ## get_window_contents aggregation -/

/-- `line.split('\t').next().unwrap_or("")`: the first tab field, the
fully qualified pane target. -/
def paneTargetOf (line : List Char) : List Char :=
  (splitOnChar '\t' line).headD []

/-- The loop body of `get_window_contents`: one block per listed pane,
header line, captured contents (or inline capture-error text), then a
newline; a line with an empty first field contributes nothing. -/
def paneBlock (cap : Capture) (line : List Char) : List Char :=
  let pt := paneTargetOf line
  if pt = [] then []
  else
    "=== Pane ".toList ++ pt ++ " (".toList ++ line ++ ") ===\n".toList ++
      capture_pane cap pt ++ ['\n']

/-- The aggregation loop of `async fn get_window_contents` over the
lines of the `list-panes` reply. -/
def get_window_contents (cap : Capture) (lines : List (List Char)) : List Char :=
  lines.foldl (fun out line => out ++ paneBlock cap line) []

/-! ## Concrete oracles used by witnesses and counterexamples -/

/-- An ambient context whose session is `API` and whose window is
`API:5`, matching the worked examples of the specification. -/
def qAPI : Query := fun _ fmt =>
  match fmt with
  | Fmt.sessionName => Except.ok "API".toList
  | Fmt.sessionWindow => Except.ok "API:5".toList

/-- A capture oracle that succeeds on every target, echoing the target. -/
def capEcho : Capture := fun t => Except.ok ('[' :: t ++ [']'] ++ ['\n'])

/-- A capture oracle that fails on pane `API:5.1` and echoes like
`capEcho` on every other target. -/
def capFailSecond : Capture := fun t =>
  if t = "API:5.1".toList then Except.error "no pane".toList else capEcho t

/-- A pane-listing oracle that always fails. -/
def panesOfErr : List Char → List Char → Except (List Char) (List PaneInfo) :=
  fun _ _ => Except.error "tmux error: no such window".toList

/-- A pane-listing oracle with a single pane whose id is `%1`. -/
def panesOfOne : List Char → List Char → Except (List Char) (List PaneInfo) :=
  fun _ _ => Except.ok [⟨0, 80, 24, "zsh".toList, true, "%1".toList⟩]

/-! ## Helper lemmas -/

theorem foldl_max_le_init (f : List (List Char) → Nat) :
    ∀ (l : List (List (List Char)))
      (init : Nat), init ≤ l.foldl (fun acc x => max acc (f x)) init := by
  intro l
  induction l with
  | nil => intro init; simp
  | cons x xs ih =>
    intro init
    simpa using le_trans (le_max_left init (f x)) (ih (max init (f x)))

theorem le_foldl_max (f : List (List Char) → Nat) {l : List (List (List Char))}
    {x : List (List Char)} (hx : x ∈ l) :
    ∀ init : Nat, f x ≤ l.foldl (fun acc y => max acc (f y)) init := by
  induction l with
  | nil => cases hx
  | cons a as ih =>
    intro init
    rcases List.mem_cons.mp hx with rfl | hmem
    · exact le_trans (le_max_right init (f x)) (foldl_max_le_init f as _)
    · exact ih hmem _

theorem foldl_max_le_init_nat : ∀ (l : List Nat) (init : Nat), init ≤ l.foldl max init := by
  intro l
  induction l with
  | nil => intro init; simp
  | cons x xs ih => intro init; exact le_trans (le_max_left init x) (ih _)

theorem le_foldl_max_nat {l : List Nat} {x : Nat} (hx : x ∈ l) :
    ∀ init : Nat, x ≤ l.foldl max init := by
  induction l with
  | nil => cases hx
  | cons a as ih =>
    intro init
    rcases List.mem_cons.mp hx with rfl | hmem
    · exact le_trans (le_max_right init x) (foldl_max_le_init_nat as _)
    · exact ih hmem _

theorem cell_len_le_colWidth {rows : List (List (List Char))}
    {row : List (List Char)} {i : Nat} {cell : List Char}
    (hrow : row ∈ rows) (hcell : row[i]? = some cell) :
    cell.length ≤ colWidth rows i := by
  have h := le_foldl_max (fun r => (r[i]?.map List.length).getD 0) hrow 0
  simpa [colWidth, hcell] using h

theorem row_len_le_colCount {rows : List (List (List Char))}
    {row : List (List Char)} (hrow : row ∈ rows) :
    row.length ≤ colCount rows :=
  le_foldl_max_nat (List.mem_map_of_mem List.length hrow) 0

theorem widthsList_getD {rows : List (List (List Char))} {i : Nat}
    (h : i < colCount rows) : (widthsList rows).getD i 0 = colWidth rows i := by
  unfold widthsList
  rw [List.getD_eq_getElem?_getD, List.getElem?_map, List.getElem?_range h]
  rfl

theorem rowCells_getElem? (widths : List Nat) (row : List (List Char)) (i : Nat) :
    (rowCells widths row)[i]? = row[i]?.map
      (fun cell => if i + 1 < row.length then padCell cell (widths.getD i 0) else cell) := by
  unfold rowCells
  rw [List.getElem?_map, List.getElem?_enum]
  cases row[i]? <;> rfl

theorem rowCells_length (widths : List Nat) (row : List (List Char)) :
    (rowCells widths row).length = row.length := by
  unfold rowCells
  rw [List.length_map, List.enum_length]

theorem rowCells_getLast? (widths : List Nat) (row : List (List Char)) :
    (rowCells widths row).getLast? = row.getLast? := by
  rw [List.getLast?_eq_getElem?, List.getLast?_eq_getElem?, rowCells_length,
    rowCells_getElem?]
  cases hr : row[row.length - 1]? with
  | none => rfl
  | some cell =>
    have hlen : row.length - 1 < row.length := by
      rcases List.getElem?_eq_some_iff.mp hr with ⟨hl, _⟩
      exact hl
    simp only [Option.map_some']
    rw [if_neg (by omega)]

/-! ## C4: truncate -/

/-- C4: for every string and every limit of at least four characters the
truncation result has at most the limit many characters, a short enough
string is returned unchanged, and a longer string becomes its first
`limit - 3` characters followed by `...`; for limits below four the
prefix clamps to empty and the result is just the ellipsis, with no
crash. -/
theorem truncate_spec (s : List Char) (n : Nat) :
    (4 ≤ n → (truncate s n).length ≤ n
      ∧ (s.length ≤ n → truncate s n = s)
      ∧ (n < s.length → truncate s n = s.take (n - 3) ++ ['.', '.', '.']))
    ∧ (n < 4 → n < s.length → truncate s n = ['.', '.', '.']) := by
  constructor
  · intro h4
    refine ⟨?_, ?_, ?_⟩
    · by_cases hl : s.length ≤ n
      · rw [truncate, if_pos hl]; exact hl
      · rw [truncate, if_neg hl, List.length_append, List.length_take]
        have hmin : min (n - 3) s.length ≤ n - 3 := min_le_left _ _
        simp only [List.length_cons, List.length_nil]
        omega
    · intro h
      simp [truncate, h]
    · intro h
      rw [truncate, if_neg (by omega)]
  · intro hn hl
    rw [truncate, if_neg (by omega)]
    have h0 : n - 3 = 0 := by omega
    rw [h0]
    simp

theorem truncate_spec_witness :
    (4 ≤ 8 ∧ (truncate "hello world".toList 8).length ≤ 8
      ∧ truncate "hello world".toList 8 = "hello world".toList.take 5 ++ ['.', '.', '.'])
    ∧ (2 < 4 ∧ 2 < ("hello".toList).length ∧ truncate "hello".toList 2 = ['.', '.', '.']) := by
  refine ⟨⟨by decide, ((truncate_spec "hello world".toList 8).1 (by decide)).1, ?_⟩,
    by decide, by decide, (truncate_spec "hello".toList 2).2 (by decide) (by decide)⟩
  exact ((truncate_spec "hello world".toList 8).1 (by decide)).2.2 (by decide)

/-! ## C5 and C9: align_columns -/

/-- C5: every row of the input is rendered into the output by joining
its cells with exactly two spaces; every cell except the last of its row
is right-padded so that its printed width equals the maximum width
observed for that column over all rows; the last cell of a row is kept
exactly as it is, so no line ends in padding. -/
theorem align_columns_spec (rows : List (List (List Char)))
    (row : List (List Char)) (hrow : row ∈ rows) :
    joinSep [' ', ' '] (rowCells (widthsList rows) row) ∈ align_columns rows
    ∧ (∀ i cell, row[i]? = some cell → i + 1 < row.length →
        (rowCells (widthsList rows) row)[i]? = some (padCell cell (colWidth rows i))
        ∧ (padCell cell (colWidth rows i)).length = colWidth rows i)
    ∧ (rowCells (widthsList rows) row).getLast? = row.getLast? := by
  refine ⟨?_, ?_, rowCells_getLast? _ _⟩
  · unfold align_columns
    rw [if_neg (by cases rows with
      | nil => cases hrow
      | cons a as => simp)]
    exact List.mem_map_of_mem _ hrow
  · intro i cell hcell hi
    have hwidth : cell.length ≤ colWidth rows i := cell_len_le_colWidth hrow hcell
    have hlen : i < row.length := by omega
    have hcc : i < colCount rows := lt_of_lt_of_le hlen (row_len_le_colCount hrow)
    constructor
    · rw [rowCells_getElem?, hcell]
      simp only [Option.map_some']
      rw [if_pos hi, widthsList_getD hcc]
    · unfold padCell
      rw [List.length_append, List.length_replicate]
      omega

theorem align_columns_spec_witness :
    ("a".toList ∈ ([["a".toList, "bb".toList], ["ccc".toList]] :
        List (List (List Char))).head!) ∧
    (joinSep [' ', ' ']
        (rowCells (widthsList [["a".toList, "bb".toList], ["ccc".toList]])
          ["a".toList, "bb".toList])
      ∈ align_columns [["a".toList, "bb".toList], ["ccc".toList]])
    ∧ (rowCells (widthsList [["a".toList, "bb".toList], ["ccc".toList]])
        ["a".toList, "bb".toList])[0]?
      = some (padCell "a".toList
          (colWidth [["a".toList, "bb".toList], ["ccc".toList]] 0))
    ∧ (padCell "a".toList (colWidth [["a".toList, "bb".toList], ["ccc".toList]] 0)).length
      = colWidth [["a".toList, "bb".toList], ["ccc".toList]] 0 := by
  have h := align_columns_spec [["a".toList, "bb".toList], ["ccc".toList]]
    ["a".toList, "bb".toList] (by decide)
  have h2 := h.2.1 0 "a".toList (by decide) (by decide)
  exact ⟨by decide, h.1, h2.1, h2.2⟩

/-- C9: the aligner is a total function on ragged input: the empty input
yields the empty output, the output has exactly one line per input row,
and every width-table access made while rendering a row stays within the
bounds of the widths vector. -/
theorem align_columns_total (rows : List (List (List Char))) :
    align_columns ([] : List (List (List Char))) = []
    ∧ (align_columns rows).length = rows.length
    ∧ (∀ row, row ∈ rows → ∀ i cell, row[i]? = some cell →
        i < (widthsList rows).length) := by
  refine ⟨rfl, ?_, ?_⟩
  · unfold align_columns
    cases rows with
    | nil => simp
    | cons a as => simp
  · intro row hrow i cell hcell
    rcases List.getElem?_eq_some_iff.mp hcell with ⟨hlt, _⟩
    have hle := row_len_le_colCount hrow
    unfold widthsList
    rw [List.length_map, List.length_range]
    omega

theorem align_columns_total_witness :
    (align_columns ([["x".toList], ["y".toList, "zz".toList]] :
        List (List (List Char)))).length = 2
    ∧ (0 : Nat) < (widthsList [["x".toList], ["y".toList, "zz".toList]]).length := by
  have h := align_columns_total [["x".toList], ["y".toList, "zz".toList]]
  exact ⟨h.2.1, h.2.2 ["x".toList] (by decide) 0 "x".toList (by decide)⟩

/-! ## trim lemmas for the resolver -/

theorem dropWhile_head?_false {p : Char → Bool} {l : List Char} {a : Char}
    (h : (l.dropWhile p).head? = some a) : p a = false := by
  induction l with
  | nil => simp at h
  | cons x xs ih =>
    rw [List.dropWhile_cons] at h
    by_cases hp : p x
    · rw [if_pos hp] at h
      exact ih h
    · rw [if_neg hp] at h
      simp only [List.head?_cons, Option.some.injEq] at h
      subst h
      exact Bool.eq_false_iff.mpr hp

theorem suffix_getLast? {l₁ l₂ : List Char} (h : l₁ <:+ l₂) (hne : l₁ ≠ []) :
    l₂.getLast? = l₁.getLast? := by
  obtain ⟨pre, rfl⟩ := h
  rw [List.getLast?_append]
  cases hl : l₁.getLast? with
  | none => exact absurd (List.getLast?_eq_none_iff.mp hl) hne
  | some a => rfl

theorem trim_head?_not_ws {s : List Char} {c : Char}
    (h : (trim s).head? = some c) : isWS c = false := by
  unfold trim at h
  rw [List.head?_reverse] at h
  set Y := (s.dropWhile isWS).reverse.dropWhile isWS with hY
  have hYne : Y ≠ [] := by
    intro hnil
    rw [hnil] at h
    simp at h
  have hsuf : Y <:+ (s.dropWhile isWS).reverse := List.dropWhile_suffix isWS
  have hlast : ((s.dropWhile isWS).reverse).getLast? = Y.getLast? :=
    suffix_getLast? hsuf hYne
  rw [List.getLast?_reverse] at hlast
  rw [h] at hlast
  exact dropWhile_head?_false hlast

theorem trim_getLast?_not_ws {s : List Char} {c : Char}
    (h : (trim s).getLast? = some c) : isWS c = false := by
  unfold trim at h
  rw [List.getLast?_reverse] at h
  exact dropWhile_head?_false h

theorem trim_eq_self {s : List Char}
    (h1 : ∀ c, s.head? = some c → isWS c = false)
    (h2 : ∀ c, s.getLast? = some c → isWS c = false) : trim s = s := by
  unfold trim
  have e1 : s.dropWhile isWS = s := by
    cases s with
    | nil => simp
    | cons a t =>
      rw [List.dropWhile_cons, if_neg]
      rw [h1 a rfl]
      simp
  rw [e1]
  have e2 : s.reverse.dropWhile isWS = s.reverse := by
    cases hr : s.reverse with
    | nil => simp
    | cons a t =>
      rw [List.dropWhile_cons, if_neg]
      have ha : s.getLast? = some a := by
        rw [← List.head?_reverse, hr, List.head?_cons]
      rw [h2 a ha]
      simp
  rw [e2, List.reverse_reverse]

theorem trim_trim (s : List Char) : trim (trim s) = trim s :=
  trim_eq_self (fun _ h => trim_head?_not_ws h) (fun _ h => trim_getLast?_not_ws h)

theorem trim_append_fixed (a b : List Char) (c : Char) (hc : isWS c = false) :
    trim (trim a ++ c :: trim b) = trim a ++ c :: trim b := by
  apply trim_eq_self
  · intro x hx
    rw [List.head?_append] at hx
    cases ha : (trim a).head? with
    | none =>
      rw [ha, Option.none_or, List.head?_cons] at hx
      cases hx
      exact hc
    | some y =>
      rw [ha] at hx
      simp only [Option.or_some, Option.some.injEq] at hx
      subst hx
      exact trim_head?_not_ws ha
  · intro x hx
    rw [List.getLast?_append] at hx
    cases hb : trim b with
    | nil =>
      rw [hb] at hx
      simp only [List.getLast?_singleton, Option.or_some, Option.some.injEq] at hx
      subst hx
      exact hc
    | cons y ys =>
      rw [hb, List.getLast?_cons_cons] at hx
      have hlast : (trim b).getLast? = some x := by
        cases hyy : (y :: ys).getLast? with
        | none => simp at hyy
        | some z =>
          rw [hyy] at hx
          simp only [Option.or_some, Option.some.injEq] at hx
          rw [hb, hyy, hx]
      exact trim_getLast?_not_ws hlast

/-! ## Infix helper lemmas -/

theorem infix_append_right {l a b : List Char} (h : l <:+: b) : l <:+: a ++ b := by
  obtain ⟨s, t, rfl⟩ := h
  exact ⟨a ++ s, t, by simp [List.append_assoc]⟩

theorem infix_append_left {l a b : List Char} (h : l <:+: a) : l <:+: a ++ b := by
  obtain ⟨s, t, rfl⟩ := h
  exact ⟨s, t ++ b, by simp [List.append_assoc]⟩

theorem infix_refl_list (l : List Char) : l <:+: l :=
  ⟨[], [], by simp⟩

theorem infix_of_suffix {l a : List Char} (h : l <:+ a) : l <:+: a := by
  obtain ⟨s, rfl⟩ := h
  exact ⟨s, [], by simp⟩

theorem infix_extend_right {l r b : List Char} (h : (l ++ r) <:+: b) : l <:+: b := by
  obtain ⟨s, t, rfl⟩ := h
  exact ⟨s, r ++ t, by simp [List.append_assoc]⟩

theorem infix_flatten_of_mem {x : List Char} {xs : List (List Char)}
    (h : x ∈ xs) : x <:+: xs.flatten := by
  induction xs with
  | nil => cases h
  | cons y ys ih =>
    rcases List.mem_cons.mp h with rfl | h
    · rw [List.flatten_cons]
      exact infix_append_left (infix_refl_list x)
    · rw [List.flatten_cons]
      exact infix_append_right (ih h)

theorem suffix_joinSep {sep : List Char} :
    ∀ {cells : List (List Char)} {c : List Char},
      cells.getLast? = some c → c <:+ joinSep sep cells := by
  intro cells
  induction cells with
  | nil => intro c h; simp at h
  | cons x xs ih =>
    intro c h
    cases xs with
    | nil =>
      simp only [List.getLast?_singleton, Option.some.injEq] at h
      subst h
      exact List.suffix_refl _
    | cons y ys =>
      rw [List.getLast?_cons_cons] at h
      have hstep : joinSep sep (x :: y :: ys) = x ++ sep ++ joinSep sep (y :: ys) := rfl
      rw [hstep]
      exact (ih h).trans (List.suffix_append _ _)

/-! ## C1: target resolution in get_pane_contents -/

/-- C1: a trimmed target containing both a session delimiter and a pane
delimiter is passed to capture unchanged; a target with a pane delimiter
but no session delimiter is prefixed with the ambient session name and a
colon; a bare target is appended with a dot to the ambient
session:window pair; and the three worked examples of the specification
hold under the ambient context `API` / `API:5`. -/
theorem get_pane_contents_resolution (cap : Capture) (q : Query)
    (pid raw : List Char) :
    (∀ cpid, ':' ∈ trim raw → '.' ∈ trim raw →
        get_pane_contents cap cpid q raw
          = (capture_pane cap (trim raw), [TmuxCall.capture]))
    ∧ ('.' ∈ trim raw → ':' ∉ trim raw → ∀ s, q pid Fmt.sessionName = Except.ok s →
        get_pane_contents cap (some pid) q raw
          = (capture_pane cap (trim s ++ ':' :: trim raw),
             [TmuxCall.display Fmt.sessionName, TmuxCall.capture]))
    ∧ (':' ∉ trim raw → '.' ∉ trim raw → ∀ w, q pid Fmt.sessionWindow = Except.ok w →
        get_pane_contents cap (some pid) q raw
          = (capture_pane cap (trim w ++ '.' :: trim raw),
             [TmuxCall.display Fmt.sessionWindow, TmuxCall.capture]))
    ∧ (resolveTarget (some pid) qAPI "API:5.1".toList).1 = Except.ok "API:5.1".toList
    ∧ (resolveTarget (some pid) qAPI "5.1".toList).1 = Except.ok "API:5.1".toList
    ∧ (resolveTarget (some pid) qAPI "1".toList).1 = Except.ok "API:5.1".toList := by
  refine ⟨?_, ?_, ?_, rfl, rfl, rfl⟩
  · intro cpid h1 h2
    simp only [get_pane_contents, resolveTarget]
    rw [if_pos h1, if_pos h2]
    rfl
  · intro h2 h1 s hs
    simp only [get_pane_contents, resolveTarget]
    rw [if_neg h1, if_pos h2]
    simp only [resolve_pane_id, hs, Except.map_ok]
    rfl
  · intro h1 h2 w hw
    simp only [get_pane_contents, resolveTarget]
    rw [if_neg h1, if_neg h2]
    simp only [resolve_pane_id, hw, Except.map_ok]
    rfl

theorem get_pane_contents_resolution_witness :
    (':' ∈ trim "API:5.1".toList ∧ '.' ∈ trim "API:5.1".toList
      ∧ get_pane_contents capEcho none qAPI "API:5.1".toList
          = (capture_pane capEcho (trim "API:5.1".toList), [TmuxCall.capture]))
    ∧ get_pane_contents capEcho (some "%1".toList) qAPI "5.1".toList
        = (capture_pane capEcho (trim "API".toList ++ ':' :: trim "5.1".toList),
           [TmuxCall.display Fmt.sessionName, TmuxCall.capture]) := by
  constructor
  · exact ⟨by decide, by decide,
      (get_pane_contents_resolution capEcho qAPI [] "API:5.1".toList).1 none
        (by decide) (by decide)⟩
  · exact (get_pane_contents_resolution capEcho qAPI "%1".toList "5.1".toList).2.1
      (by decide) (by decide) "API".toList rfl

/-! ## C2: rejection paths of get_pane_contents -/

/-- C2: a session-qualified target without any pane delimiter is
rejected with a message that mentions `window.pane`, and a target that
needs ambient context while no ambient pane exists yields the
`Not running inside tmux` message; in both cases the error is produced
with an empty external-call log, before any tmux invocation. -/
theorem get_pane_contents_rejects (cap : Capture) (q : Query)
    (cpid : Option (List Char)) (raw : List Char) :
    (':' ∈ trim raw → '.' ∉ trim raw →
      get_pane_contents cap cpid q raw = (invalidTargetMsg (trim raw), [])
      ∧ "window.pane".toList <:+: invalidTargetMsg (trim raw))
    ∧ (':' ∉ trim raw → cpid = none →
      get_pane_contents cap cpid q raw = (notRunningMsg, [])
      ∧ "running inside".toList <:+: notRunningMsg) := by
  constructor
  · intro h1 h2
    constructor
    · simp only [get_pane_contents, resolveTarget]
      rw [if_pos h1, if_neg h2]
      rfl
    · refine ⟨"Invalid target \"".toList ++ trim raw ++ "\": expected \"sess:".toList,
        "\" but no pane specifier found. Use get_window_contents to read an entire window.".toList,
        ?_⟩
      simp only [invalidTargetMsg]
      simp only [List.append_assoc]
      rfl
  · intro h1 hc
    subst hc
    constructor
    · by_cases h2 : '.' ∈ trim raw
      · simp only [get_pane_contents, resolveTarget]
        rw [if_neg h1, if_pos h2]
        rfl
      · simp only [get_pane_contents, resolveTarget]
        rw [if_neg h1, if_neg h2]
        rfl
    · exact ⟨"Not ".toList, " tmux".toList, by rfl⟩

theorem get_pane_contents_rejects_witness :
    (':' ∈ trim "API:5".toList ∧ '.' ∉ trim "API:5".toList
      ∧ get_pane_contents capEcho (some "%1".toList) qAPI "API:5".toList
          = (invalidTargetMsg (trim "API:5".toList), [])
      ∧ "window.pane".toList <:+: invalidTargetMsg (trim "API:5".toList))
    ∧ (get_pane_contents capEcho none qAPI "5.1".toList = (notRunningMsg, [])) := by
  refine ⟨⟨by decide, by decide, ?_, ?_⟩, ?_⟩
  · exact ((get_pane_contents_rejects capEcho qAPI (some "%1".toList)
      "API:5".toList).1 (by decide) (by decide)).1
  · exact ((get_pane_contents_rejects capEcho qAPI (some "%1".toList)
      "API:5".toList).1 (by decide) (by decide)).2
  · exact ((get_pane_contents_rejects capEcho qAPI none "5.1".toList).2
      (by decide) rfl).1

/-! ## C7: resolver idempotence -/

/-- C7: every target produced by successful resolution contains a pane
delimiter, and when it also contains a session delimiter (the fully
qualified shape the resolver always produces under a well-formed
ambient lookup) feeding it back into the resolver returns it unchanged
through the pass-through case, with no external lookup. -/
theorem resolver_idempotent (cpid : Option (List Char)) (q : Query)
    (raw r : List Char) (h : (resolveTarget cpid q raw).1 = Except.ok r) :
    '.' ∈ r ∧ (':' ∈ r → ∀ cpid' q', resolveTarget cpid' q' r = (Except.ok r, [])) := by
  have pass : trim r = r → '.' ∈ r → ':' ∈ r →
      ∀ cpid' q', resolveTarget cpid' q' r = (Except.ok r, []) := by
    intro hfix hdot hcolon cpid' q'
    simp only [resolveTarget, hfix]
    rw [if_pos hcolon, if_pos hdot]
  by_cases h1 : ':' ∈ trim raw
  · by_cases h2 : '.' ∈ trim raw
    · have hr : r = trim raw := by
        simp only [resolveTarget] at h
        rw [if_pos h1, if_pos h2] at h
        exact (Except.ok.injEq _ _ ▸ h).symm
      subst hr
      exact ⟨h2, fun hc => pass (trim_trim raw) h2 hc⟩
    · simp only [resolveTarget] at h
      rw [if_pos h1, if_neg h2] at h
      simp at h
  · by_cases h2 : '.' ∈ trim raw
    · cases cpid with
      | none =>
        simp only [resolveTarget] at h
        rw [if_neg h1, if_pos h2] at h
        simp at h
      | some pid =>
        simp only [resolveTarget] at h
        rw [if_neg h1, if_pos h2] at h
        cases hq : q pid Fmt.sessionName with
        | error e => rw [resolve_pane_id, hq] at h; exact Except.noConfusion h
        | ok s =>
          rw [resolve_pane_id, hq] at h
          have h' : (Except.ok (trim s ++ ':' :: trim raw) :
              Except (List Char) (List Char)) = Except.ok r := h
          have hr : r = trim s ++ ':' :: trim raw := (Except.ok.inj h').symm
          subst hr
          have hdot : '.' ∈ trim s ++ ':' :: trim raw :=
            List.mem_append.mpr (Or.inr (List.mem_cons_of_mem _ h2))
          refine ⟨hdot, fun hc => pass ?_ hdot hc⟩
          exact trim_append_fixed s raw ':' (by decide)
    · cases cpid with
      | none =>
        simp only [resolveTarget] at h
        rw [if_neg h1, if_neg h2] at h
        simp at h
      | some pid =>
        simp only [resolveTarget] at h
        rw [if_neg h1, if_neg h2] at h
        cases hq : q pid Fmt.sessionWindow with
        | error e => rw [resolve_pane_id, hq] at h; exact Except.noConfusion h
        | ok s =>
          rw [resolve_pane_id, hq] at h
          have h' : (Except.ok (trim s ++ '.' :: trim raw) :
              Except (List Char) (List Char)) = Except.ok r := h
          have hr : r = trim s ++ '.' :: trim raw := (Except.ok.inj h').symm
          subst hr
          have hdot : '.' ∈ trim s ++ '.' :: trim raw :=
            List.mem_append.mpr (Or.inr (List.mem_cons_self _ _))
          refine ⟨hdot, fun hc => pass ?_ hdot hc⟩
          exact trim_append_fixed s raw '.' (by decide)

theorem resolver_idempotent_witness :
    ((resolveTarget (some "%1".toList) qAPI "5.1".toList).1
        = Except.ok "API:5.1".toList)
    ∧ '.' ∈ "API:5.1".toList
    ∧ ':' ∈ "API:5.1".toList
    ∧ resolveTarget none qAPI "API:5.1".toList
        = (Except.ok "API:5.1".toList, []) := by
  have h := resolver_idempotent (some "%1".toList) qAPI "5.1".toList
    "API:5.1".toList rfl
  exact ⟨rfl, h.1, by decide, h.2 (by decide) none qAPI⟩

/-! ## C10: the pane-specifier check inspects the whole string -/

/-- C10: for a colon-containing trimmed target, the no-pane-specifier
rejection fires exactly when the whole string has no dot anywhere; a
dotted session name with a window index and no pane, such as
`my.sess:5`, is accepted as fully qualified and passed through
unchanged. -/
theorem no_pane_rejection_iff (cpid : Option (List Char)) (q : Query)
    (raw : List Char) (h1 : ':' ∈ trim raw) :
    ((resolveTarget cpid q raw).1 = Except.error (invalidTargetMsg (trim raw))
      ↔ '.' ∉ trim raw)
    ∧ (∀ cpid' q', resolveTarget cpid' q' "my.sess:5".toList
        = (Except.ok "my.sess:5".toList, [])) := by
  constructor
  · constructor
    · intro herr h2
      simp only [resolveTarget] at herr
      rw [if_pos h1, if_pos h2] at herr
      simp at herr
    · intro h2
      simp only [resolveTarget]
      rw [if_pos h1, if_neg h2]
  · intro cpid' q'
    simp only [resolveTarget]
    rw [if_pos (by decide : ':' ∈ trim "my.sess:5".toList),
      if_pos (by decide : '.' ∈ trim "my.sess:5".toList)]
    rfl

theorem no_pane_rejection_iff_witness :
    (':' ∈ trim "API:5".toList)
    ∧ ((resolveTarget (some "%1".toList) qAPI "API:5".toList).1
        = Except.error (invalidTargetMsg (trim "API:5".toList)))
    ∧ resolveTarget none qAPI "my.sess:5".toList
        = (Except.ok "my.sess:5".toList, []) := by
  have h := no_pane_rejection_iff (some "%1".toList) qAPI "API:5".toList (by decide)
  exact ⟨by decide, h.1.mpr (by decide), h.2 none qAPI⟩

/-! ## C8: lenient row parsing -/

theorem filterMap_guard {α β : Type} (p : α → Prop) [DecidablePred p] (g : α → β) :
    ∀ l : List α, (l.filterMap fun x => if p x then some (g x) else none)
      = (l.filter fun x => decide (p x)).map g := by
  intro l
  induction l with
  | nil => rfl
  | cons a as ih =>
    by_cases hp : p a
    · simp [List.filterMap_cons, List.filter_cons, hp, ih]
    · simp [List.filterMap_cons, List.filter_cons, hp, ih]

/-- C8: pane-listing and session-listing rows with fewer tab fields than
expected are skipped entirely, every surviving line contributes exactly
one record, and a numeric field whose parse fails becomes zero rather
than an error; parsing is a total function of the input text. -/
theorem lenient_row_parsing (paneLines sessLines : List (List Char)) (s : List Char) :
    fetch_panes paneLines
      = (paneLines.filter fun l => decide (6 ≤ (splitOnChar '\t' l).length)).map paneOfLine
    ∧ list_sessions_rows sessLines
      = (sessLines.filter fun l => decide (3 ≤ (splitOnChar '\t' l).length)).map sessionOfLine
    ∧ (parseU32opt s = none → parseU32 s = 0) := by
  refine ⟨filterMap_guard _ _ paneLines, filterMap_guard _ _ sessLines, ?_⟩
  intro h
  simp [parseU32, h]

theorem lenient_row_parsing_witness :
    fetch_panes ["0\t80\t24\tzsh\t1\t%1".toList, "bad line".toList]
      = (["0\t80\t24\tzsh\t1\t%1".toList, "bad line".toList].filter
          fun l => decide (6 ≤ (splitOnChar '\t' l).length)).map paneOfLine
    ∧ fetch_panes ["0\t80\t24\tzsh\t1\t%1".toList, "bad line".toList]
        = [⟨0, 80, 24, "zsh".toList, true, "%1".toList⟩]
    ∧ parseU32opt "abc".toList = none
    ∧ parseU32 "abc".toList = 0 := by
  have h := lenient_row_parsing ["0\t80\t24\tzsh\t1\t%1".toList, "bad line".toList]
    [] "abc".toList
  exact ⟨h.1, by decide, by decide, h.2.2 (by decide)⟩

/-! ## C6: window-content aggregation -/

theorem foldl_append_blocks (cap : Capture) :
    ∀ (lines : List (List Char)) (init : List Char),
      lines.foldl (fun out line => out ++ paneBlock cap line) init
        = init ++ (lines.map (paneBlock cap)).flatten := by
  intro lines
  induction lines with
  | nil => intro init; simp
  | cons l ls ih =>
    intro init
    rw [List.foldl_cons, ih, List.map_cons, List.flatten_cons, List.append_assoc]

/-- C6: the aggregation is the concatenation of one independent block
per listed pane; every pane with a nonempty target contributes its
`=== Pane target (line) ===` header followed by its captured contents
and a newline; a failed capture turns into inline error text inside that
block only, and a block depends only on the capture outcome for its own
target, so one failure leaves every other block unchanged and never
aborts the aggregation. -/
theorem get_window_contents_aggregation (cap cap' : Capture)
    (lines : List (List Char)) (line t e : List Char) :
    get_window_contents cap lines = (lines.map (paneBlock cap)).flatten
    ∧ (line ∈ lines → paneTargetOf line ≠ [] →
        ("=== Pane ".toList ++ paneTargetOf line ++ " (".toList ++ line ++
            ") ===\n".toList ++ capture_pane cap (paneTargetOf line) ++ ['\n'])
          <:+: get_window_contents cap lines)
    ∧ (cap t = Except.error e →
        capture_pane cap t = "Error capturing ".toList ++ t ++ ": ".toList ++ e ++ ['\n'])
    ∧ (cap (paneTargetOf line) = cap' (paneTargetOf line) →
        paneBlock cap line = paneBlock cap' line) := by
  have hfold : get_window_contents cap lines = (lines.map (paneBlock cap)).flatten := by
    rw [get_window_contents, foldl_append_blocks, List.nil_append]
  refine ⟨hfold, ?_, ?_, ?_⟩
  · intro hmem hne
    rw [hfold]
    have hblock : paneBlock cap line
        = "=== Pane ".toList ++ paneTargetOf line ++ " (".toList ++ line ++
            ") ===\n".toList ++ capture_pane cap (paneTargetOf line) ++ ['\n'] := by
      simp only [paneBlock]
      rw [if_neg hne]
    rw [← hblock]
    exact infix_flatten_of_mem (List.mem_map_of_mem _ hmem)
  · intro h
    rw [capture_pane, h]
  · intro h
    simp only [paneBlock, capture_pane, h]

theorem get_window_contents_aggregation_witness :
    ("API:5.1\tt2".toList ∈ ["API:5.0\tt1".toList, "API:5.1\tt2".toList]
      ∧ paneTargetOf "API:5.1\tt2".toList ≠ []
      ∧ ("=== Pane ".toList ++ paneTargetOf "API:5.1\tt2".toList ++ " (".toList ++
          "API:5.1\tt2".toList ++ ") ===\n".toList ++
          capture_pane capFailSecond (paneTargetOf "API:5.1\tt2".toList) ++ ['\n'])
        <:+: get_window_contents capFailSecond
              ["API:5.0\tt1".toList, "API:5.1\tt2".toList])
    ∧ capFailSecond "API:5.1".toList = Except.error "no pane".toList
    ∧ capture_pane capFailSecond "API:5.1".toList
        = "Error capturing ".toList ++ "API:5.1".toList ++ ": ".toList ++
            "no pane".toList ++ ['\n']
    ∧ paneBlock capFailSecond "API:5.0\tt1".toList
        = paneBlock capEcho "API:5.0\tt1".toList := by
  have h := get_window_contents_aggregation capFailSecond capEcho
    ["API:5.0\tt1".toList, "API:5.1\tt2".toList] "API:5.0\tt1".toList
    "API:5.1".toList "no pane".toList
  have h2 := get_window_contents_aggregation capFailSecond capEcho
    ["API:5.0\tt1".toList, "API:5.1\tt2".toList] "API:5.1\tt2".toList
    "API:5.1".toList "no pane".toList
  refine ⟨⟨by decide, by decide, h2.2.1 (by decide) (by decide)⟩, rfl,
    h.2.2.1 rfl, h.2.2.2 rfl⟩

/-! ## C3: current-window and current-pane markers in list_windows -/

theorem align_columns_getElem? {rows : List (List (List Char))} {j : Nat}
    {row : List (List Char)} (h : rows[j]? = some row) :
    (align_columns rows)[j]?
      = some (joinSep [' ', ' '] (rowCells (widthsList rows) row)) := by
  have hne : rows.isEmpty = false := by
    cases rows with
    | nil => simp at h
    | cons a as => rfl
  simp only [align_columns, hne, Bool.false_eq_true, if_false]
  rw [List.getElem?_map, h]
  rfl

theorem marker_suffix_line {rows : List (List (List Char))}
    {row : List (List Char)} {m : List Char} (hlast : row.getLast? = some m) :
    m <:+ joinSep [' ', ' '] (rowCells (widthsList rows) row) := by
  apply suffix_joinSep
  rw [rowCells_getLast?]
  exact hlast

theorem vPaneRow_marked (cpid : Option (List Char)) (p : PaneInfo)
    (hpid : cpid = some p.pane_id) :
    ∃ scell, (vPaneRow true cpid p).getLast? = some scell
      ∧ "<-- current".toList <:+ scell := by
  subst hpid
  by_cases ha : p.is_active = true
  · refine ⟨"(active)".toList ++ ("  ".toList ++ "<-- current".toList), ?_, by decide⟩
    simp only [vPaneRow]
    rw [ha]
    rw [if_pos (rfl : (true : Bool) = true)]
    rw [if_pos (⟨trivial, trivial⟩ : True ∧ True)]
    rw [if_neg (by decide : ¬ ("(active)".toList = ([] : List Char)))]
    rw [if_neg (by decide :
      ¬ ("(active)".toList ++ ("  ".toList ++ "<-- current".toList) = ([] : List Char)))]
    exact List.getLast?_concat _
  · refine ⟨[] ++ ([] ++ "<-- current".toList), ?_, by decide⟩
    simp only [vPaneRow]
    rw [if_neg ha]
    rw [if_pos (⟨trivial, trivial⟩ : True ∧ True)]
    rw [if_pos (rfl : ([] : List Char) = [])]
    rw [if_neg (by decide : ¬ (([] : List Char) ++ ([] ++ "<-- current".toList) = []))]
    exact List.getLast?_concat _

/-- C3 counterexample: with the server running in pane `%1` of window
`API:5` and a single verbose window row for `API:5`, the window header
line of the verbose listing carries no `<-- current` marker anywhere,
although the window matches the ambient session:window — refuting the
claim that the window line is marked in verbose mode. -/
theorem list_windows_verbose_window_marker_missing :
    currentWindowOf (some "%1".toList) qAPI = some "API:5".toList
    ∧ list_windows panesOfErr qAPI (some "%1".toList) true
        ["API\t5\twin\t1\tactive".toList]
      = "API:5:  win  1 pane  active".toList
    ∧ ¬ ("<-- current".toList <:+:
          list_windows panesOfErr qAPI (some "%1".toList) true
            ["API\t5\twin\t1\tactive".toList]) := by
  refine ⟨rfl, rfl, ?_⟩
  decide

/-- C3 (amended): in non-verbose mode the window row whose session:index
key equals the ambient session:window receives a trailing `<-- current`
cell, which survives alignment as a suffix of that window's rendered
line; in verbose mode the window header itself is not marked (see the
counterexample) — instead the pane row whose pane id equals the ambient
pane id within the ambient window carries the `<-- current` marker as a
suffix of its aligned pane line, and that line occurs inside the
window's verbose block. -/
theorem list_windows_current_markers
    (panesOf : List Char → List Char → Except (List Char) (List PaneInfo))
    (q : Query) (cpid : Option (List Char)) (lines : List (List Char))
    (j : Nat) (w : WinRow)
    (hw : (parseWinRows lines)[j]? = some w)
    (hcw : currentWindowOf cpid q = some (winKey w)) :
    (∃ line, (align_columns (nonVerboseRows (currentWindowOf cpid q)
          (parseWinRows lines)))[j]? = some line
      ∧ "<-- current".toList <:+ line
      ∧ list_windows panesOf q cpid false lines
          = joinSep ['\n'] (align_columns (nonVerboseRows (currentWindowOf cpid q)
              (parseWinRows lines))))
    ∧ (∀ (ps : List PaneInfo) (i : Nat) (p : PaneInfo),
        panesOf w.session w.index = Except.ok ps → ps[i]? = some p →
        cpid = some p.pane_id →
        ∃ pline, (align_columns (ps.map (vPaneRow true cpid)))[i]? = some pline
          ∧ "<-- current".toList <:+ pline
          ∧ pline <:+: vWindowBlock panesOf (currentWindowOf cpid q) cpid w) := by
  constructor
  · have hrow : (nonVerboseRows (currentWindowOf cpid q) (parseWinRows lines))[j]?
        = some (nonVerboseRow (currentWindowOf cpid q) w) := by
      rw [nonVerboseRows, List.getElem?_map, hw]
      rfl
    refine ⟨_, align_columns_getElem? hrow, ?_, rfl⟩
    apply marker_suffix_line
    simp only [nonVerboseRow]
    rw [if_pos hcw]
    exact List.getLast?_concat _
  · intro ps i p hps hpi hpid
    have hrow : (ps.map (vPaneRow true cpid))[i]? = some (vPaneRow true cpid p) := by
      rw [List.getElem?_map, hpi]
      rfl
    obtain ⟨scell, hlast, hmark⟩ := vPaneRow_marked cpid p hpid
    refine ⟨_, align_columns_getElem? hrow, ?_, ?_⟩
    · exact hmark.trans (marker_suffix_line hlast)
    · have hicw : decide (currentWindowOf cpid q = some (winKey w)) = true := by
        rw [hcw]
        simp
      have hblock : vWindowBlock panesOf (currentWindowOf cpid q) cpid w
          = vWinHeader w ++
              ((align_columns (ps.map (vPaneRow true cpid))).map (· ++ ['\n'])).flatten := by
        simp only [vWindowBlock, hicw]
        rw [hps]
      rw [hblock]
      apply infix_append_right
      apply infix_extend_right
      exact infix_flatten_of_mem
        (List.mem_map_of_mem _ (List.getElem?_mem (align_columns_getElem? hrow)))

theorem list_windows_current_markers_witness :
    ((parseWinRows ["API\t5\twin\t1\tactive".toList])[0]?
        = some ⟨"API".toList, "5".toList, "win".toList, "1".toList, "active".toList⟩)
    ∧ (currentWindowOf (some "%1".toList) qAPI
        = some (winKey ⟨"API".toList, "5".toList, "win".toList, "1".toList,
            "active".toList⟩))
    ∧ (∃ line, (align_columns (nonVerboseRows (currentWindowOf (some "%1".toList) qAPI)
          (parseWinRows ["API\t5\twin\t1\tactive".toList])))[0]? = some line
        ∧ "<-- current".toList <:+ line
        ∧ list_windows panesOfOne qAPI (some "%1".toList) false
            ["API\t5\twin\t1\tactive".toList]
          = joinSep ['\n'] (align_columns (nonVerboseRows
              (currentWindowOf (some "%1".toList) qAPI)
              (parseWinRows ["API\t5\twin\t1\tactive".toList]))))
    ∧ (∃ pline, (align_columns ([⟨0, 80, 24, "zsh".toList, true, "%1".toList⟩].map
          (vPaneRow true (some "%1".toList))))[0]? = some pline
        ∧ "<-- current".toList <:+ pline
        ∧ pline <:+: vWindowBlock panesOfOne (currentWindowOf (some "%1".toList) qAPI)
            (some "%1".toList)
            ⟨"API".toList, "5".toList, "win".toList, "1".toList, "active".toList⟩) := by
  have h := list_windows_current_markers panesOfOne qAPI (some "%1".toList)
    ["API\t5\twin\t1\tactive".toList] 0
    ⟨"API".toList, "5".toList, "win".toList, "1".toList, "active".toList⟩
    (by decide) (by decide)
  exact ⟨by decide, by decide, h.1,
    h.2 [⟨0, 80, 24, "zsh".toList, true, "%1".toList⟩] 0
      ⟨0, 80, 24, "zsh".toList, true, "%1".toList⟩ rfl rfl rfl⟩

end TmuxMcp
